import Mathlib

/-!
Shallow embedding of the timetable scheduler core
(`scheduler_app/scheduler_service.py` together with the data model of
`scheduler_app/models.py`).

Database entities are identified by their primary keys (natural numbers).
The CP-SAT decision model is embedded denotationally: an `Assignment` maps
each decision-variable key `(requirement id, day, period, classroom id)` to
a boolean, and each `Add...` call of `_apply_constraints` becomes a
proposition over the assignment.  The backing solver is an external
collaborator, modelled as a `SolverResponse` (a status plus the assignment
it reports); `solve` consumes that response exactly where the Python code
calls `self.solver.Solve(self.model)`.  The persisted `ScheduledClass`
table is passed through `solve` explicitly as a list, so that the
delete-then-bulk-insert behaviour of `_save_results` is observable.
-/

namespace Timetable

/-- Embeds `FacultyAssignment.ClassTypeResponsibility` from `models.py`. -/
inductive Responsibility
  | ALL
  | THEORY_ONLY
  | TUTORIAL_ONLY
deriving DecidableEq, Repr

/-- Embeds `ScheduledClass.ClassType` from `models.py`. -/
inductive ClassType
  | THEORY
  | TUTORIAL
deriving DecidableEq, Repr

/-- One `FacultyAssignment` row attached to a course offering (the
`responsibility`-annotated link to a faculty member). -/
structure FacultyAssignment where
  facultyId : Nat
  responsibility : Responsibility
deriving DecidableEq, Repr

/-- One `CourseOffering` row with its prefetched `faculty_assignments`,
in their enumeration order. -/
structure CourseOffering where
  subjectId : Nat
  sectionId : Nat
  requiredTheoryHours : Nat
  requiredTutorialHours : Nat
  facultyAssignments : List FacultyAssignment
deriving DecidableEq, Repr

/-- One entry of the flat requirement list built by
`_prepare_class_requirements` (a dict with keys
`id, subject, section, faculty, class_type` in the Python code). -/
structure Requirement where
  id : Nat
  subjectId : Nat
  sectionId : Nat
  facultyId : Nat
  classType : ClassType
deriving DecidableEq, Repr

/-- One persisted `ScheduledClass` row. -/
structure ScheduledClass where
  day : Nat
  period : Nat
  classroomId : Nat
  facultyId : Nat
  subjectId : Nat
  sectionId : Nat
  classType : ClassType
deriving DecidableEq, Repr

/-- The data the solver loads from the database in `__init__` and
`_prepare_class_requirements`: the flat id lists `all_sections`,
`all_classrooms`, `all_faculties`, and every `CourseOffering` with its
assignments. -/
structure SchedulerInput where
  allSections : List Nat
  allClassrooms : List Nat
  allFaculties : List Nat
  offerings : List CourseOffering
deriving Repr

/-- Embeds `DAYS = range(1, 7)` of `scheduler_service.py`. -/
def DAYS : List Nat := List.range' 1 6

/-- Embeds `PERIODS = range(1, 9)` of `scheduler_service.py`. -/
def PERIODS : List Nat := List.range' 1 8

/-- Embeds `assign.responsibility in [ALL, THEORY_ONLY]` (theory-faculty test). -/
def responsibleForTheory (a : FacultyAssignment) : Bool :=
  a.responsibility == Responsibility.ALL || a.responsibility == Responsibility.THEORY_ONLY

/-- Embeds `assign.responsibility in [ALL, TUTORIAL_ONLY]` (tutorial-faculty test). -/
def responsibleForTutorial (a : FacultyAssignment) : Bool :=
  a.responsibility == Responsibility.ALL || a.responsibility == Responsibility.TUTORIAL_ONLY

/-- The per-offering body of the loop in `_prepare_class_requirements`:
pick the first assignment responsible for theory (the `break` makes the
scan a first-match search), emit `required_theory_hours` THEORY
requirements with consecutive ids starting at the current counter, then do
the same for tutorials.  Returns the emitted requirements and the new
counter value. -/
def emitOffering (off : CourseOffering) (counter : Nat) : List Requirement × Nat :=
  let theoryReqs : List Requirement :=
    match off.facultyAssignments.find? responsibleForTheory with
    | some a =>
        (List.range' counter off.requiredTheoryHours).map fun i =>
          { id := i, subjectId := off.subjectId, sectionId := off.sectionId,
            facultyId := a.facultyId, classType := ClassType.THEORY }
    | none => []
  let c1 := counter + theoryReqs.length
  let tutorialReqs : List Requirement :=
    match off.facultyAssignments.find? responsibleForTutorial with
    | some a =>
        (List.range' c1 off.requiredTutorialHours).map fun i =>
          { id := i, subjectId := off.subjectId, sectionId := off.sectionId,
            facultyId := a.facultyId, classType := ClassType.TUTORIAL }
    | none => []
  (theoryReqs ++ tutorialReqs, c1 + tutorialReqs.length)

/-- The offering loop of `_prepare_class_requirements`, threading the
`req_id_counter` through the offerings. -/
def prepareFrom : List CourseOffering → Nat → List Requirement
  | [], _ => []
  | off :: rest, c =>
      (emitOffering off c).1 ++ prepareFrom rest (emitOffering off c).2

/-- Embeds `_prepare_class_requirements`: the flat requirement list, with
`req_id_counter` starting at 0. -/
def prepareClassRequirements (offs : List CourseOffering) : List Requirement :=
  prepareFrom offs 0

/-- A truth assignment to the boolean decision variables, indexed like the
`self.variables` dictionary: requirement id, day, period, classroom id. -/
def Assignment : Type := Nat → Nat → Nat → Nat → Bool

/-- The key sequence of `self.variables` as built by `_create_variables`
(insertion order: requirements outermost, then days, periods, rooms). -/
def varKeys (reqs : List Requirement) (rooms : List Nat) : List (Nat × Nat × Nat × Nat) :=
  reqs.flatMap fun r =>
    DAYS.flatMap fun d =>
      PERIODS.flatMap fun p =>
        rooms.map fun c => (r.id, d, p, c)

/-- The `ScheduledClass` row built from one true decision variable in
`_save_results`, denormalizing the originating requirement. -/
def toScheduledClass (r : Requirement) (d p c : Nat) : ScheduledClass :=
  { day := d, period := p, classroomId := c, facultyId := r.facultyId,
    subjectId := r.subjectId, sectionId := r.sectionId, classType := r.classType }

/-- The rows bulk-inserted by `_save_results`: walk the variable keys in
insertion order, keep those the solver set to 1, and look the requirement
up by id (`req_lookup`). -/
def saveResults (reqs : List Requirement) (rooms : List Nat) (a : Assignment) :
    List ScheduledClass :=
  (varKeys reqs rooms).filterMap fun k =>
    match k with
    | (i, d, p, c) =>
        if a i d p c then
          match reqs.find? fun r => r.id == i with
          | some r => some (toScheduledClass r d p c)
          | none => none
        else none

/-- Number of rooms in which the variable for requirement `i` at day `d`,
period `p` is true. -/
def roomHits (rooms : List Nat) (a : Assignment) (i d p : Nat) : Nat :=
  (rooms.filter fun c => a i d p c).length

/-- Number of true variables among `{(i, d, p, c) : i in ids, c in rooms}`,
the generator shape used by the `AddAtMostOne` calls for sections and
faculties. -/
def trueCount (ids : List Nat) (rooms : List Nat) (a : Assignment) (d p : Nat) : Nat :=
  (ids.map fun i => roomHits rooms a i d p).sum

/-- Number of true variables of requirement `i` over the whole grid, the
generator shape of the per-requirement `AddExactlyOne`. -/
def reqPlacedCount (i : Nat) (rooms : List Nat) (a : Assignment) : Nat :=
  (DAYS.map fun d => (PERIODS.map fun p => roomHits rooms a i d p).sum).sum

/-- Constraint 1 of `_apply_constraints`: each requirement is placed
exactly once over all (day, period, room) combinations. -/
abbrev exactlyOnePlacement (reqs : List Requirement) (rooms : List Nat) (a : Assignment) : Prop :=
  ∀ r ∈ reqs, reqPlacedCount r.id rooms a = 1

/-- Constraint 2: per (day, period) and per section in `all_sections`, at
most one variable of that section's requirements (over all rooms) is true. -/
abbrev sectionExclusive (inp : SchedulerInput) (reqs : List Requirement) (a : Assignment) : Prop :=
  ∀ d ∈ DAYS, ∀ p ∈ PERIODS, ∀ s ∈ inp.allSections,
    trueCount ((reqs.filter fun r => r.sectionId == s).map Requirement.id)
      inp.allClassrooms a d p ≤ 1

/-- Constraint 3: per (day, period, room), at most one variable over all
requirement ids is true. -/
abbrev classroomExclusive (inp : SchedulerInput) (reqs : List Requirement) (a : Assignment) : Prop :=
  ∀ d ∈ DAYS, ∀ p ∈ PERIODS, ∀ c ∈ inp.allClassrooms,
    (reqs.map Requirement.id).countP (fun i => a i d p c) ≤ 1

/-- Constraint 4: per (day, period) and per faculty in `all_faculties`
with at least one requirement, at most one of that faculty's variables
(over all rooms) is true.  The emptiness guard mirrors the
`if req_ids_for_faculty:` test of the source. -/
abbrev facultyExclusive (inp : SchedulerInput) (reqs : List Requirement) (a : Assignment) : Prop :=
  ∀ d ∈ DAYS, ∀ p ∈ PERIODS, ∀ f ∈ inp.allFaculties,
    (reqs.filter fun r => r.facultyId == f) ≠ [] →
      trueCount ((reqs.filter fun r => r.facultyId == f).map Requirement.id)
        inp.allClassrooms a d p ≤ 1

/-- Embeds `Subject.objects.filter(courseoffering__section=section).distinct()`:
the distinct subjects having a course offering for section `s`. -/
def subjectsForSection (offs : List CourseOffering) (s : Nat) : List Nat :=
  ((offs.filter fun o => o.sectionId == s).map CourseOffering.subjectId).dedup

/-- The auxiliary-variable gadget of constraint 5 for one adjacent period
pair: there are booleans `is_active_p1`, `is_active_p2` equal to the
respective sums of placement variables, of which at most one is true. -/
def activityPair (c1 c2 : Nat) : Prop :=
  ∃ b1 b2 : Bool, b1.toNat = c1 ∧ b2.toNat = c2 ∧ b1.toNat + b2.toNat ≤ 1

instance (c1 c2 : Nat) : Decidable (activityPair c1 c2) :=
  decidable_of_iff (c1 + c2 ≤ 1)
    (by
      constructor
      · intro h
        have h1 : c1 = 0 ∨ c1 = 1 := by omega
        have h2 : c2 = 0 ∨ c2 = 1 := by omega
        refine ⟨decide (c1 = 1), decide (c2 = 1), ?_, ?_, ?_⟩ <;>
          rcases h1 with h1 | h1 <;> rcases h2 with h2 | h2 <;> subst h1 <;> subst h2 <;> simp_all
      · rintro ⟨b1, b2, h1, h2, h3⟩
        cases b1 <;> cases b2 <;> simp_all)

/-- Constraint 5 of `_apply_constraints`: for every section, every subject
offered to it, every day and every adjacent period pair `(p1, p1+1)` inside
`PERIODS`, the auxiliary-variable gadget over that (section, subject)'s
variables holds. -/
abbrev noAdjacentRepeat (inp : SchedulerInput) (reqs : List Requirement) (a : Assignment) : Prop :=
  ∀ s ∈ inp.allSections, ∀ subj ∈ subjectsForSection inp.offerings s, ∀ d ∈ DAYS,
    ∀ p1 ∈ PERIODS, p1 + 1 ∈ PERIODS →
      activityPair
        (trueCount ((reqs.filter fun r => r.sectionId == s && r.subjectId == subj).map
            Requirement.id) inp.allClassrooms a d p1)
        (trueCount ((reqs.filter fun r => r.sectionId == s && r.subjectId == subj).map
            Requirement.id) inp.allClassrooms a d (p1 + 1))

/-- The whole constraint set installed by `_apply_constraints`: an
assignment of the decision variables satisfies the encoded CP-SAT model
exactly when all five constraint families hold. -/
abbrev satisfiesConstraints (inp : SchedulerInput) (reqs : List Requirement) (a : Assignment) : Prop :=
  exactlyOnePlacement reqs inp.allClassrooms a ∧
  sectionExclusive inp reqs a ∧
  classroomExclusive inp reqs a ∧
  facultyExclusive inp reqs a ∧
  noAdjacentRepeat inp reqs a

/-- CP-SAT solver status values relevant to `solve`. -/
inductive SolverStatus
  | OPTIMAL
  | FEASIBLE
  | INFEASIBLE
  | MODEL_INVALID
  | UNKNOWN
deriving DecidableEq, Repr

/-- Embeds `solver.StatusName(status)`. -/
def statusName : SolverStatus → String
  | SolverStatus.OPTIMAL => "OPTIMAL"
  | SolverStatus.FEASIBLE => "FEASIBLE"
  | SolverStatus.INFEASIBLE => "INFEASIBLE"
  | SolverStatus.MODEL_INVALID => "MODEL_INVALID"
  | SolverStatus.UNKNOWN => "UNKNOWN"

/-- What `self.solver.Solve(self.model)` hands back: a status and the
variable values that `solver.Value` then reads off. -/
structure SolverResponse where
  status : SolverStatus
  assignment : Assignment

/-- The observable outcome of one `solve()` call: the returned
(boolean, message) pair and the persisted `ScheduledClass` table after the
call. -/
structure SolveOutcome where
  ok : Bool
  message : String
  db : List ScheduledClass

/-- The message of the empty-requirements early return of `solve`. -/
def noRequirementsMessage : String :=
  "No class requirements generated. Check CourseOfferings and FacultyAssignments in admin."

/-- The message of the capacity early return of `solve`; it interpolates
both the required and the available slot count. -/
def capacityMessage (required available : Nat) : String :=
  "Scheduling impossible: " ++ toString required ++
    " classes required, but only " ++ toString available ++ " classroom slots available."

/-- The success message of `solve`. -/
def successMessage : String := "Schedule generated successfully."

/-- The non-success message of `solve`; it interpolates the solver's
status name. -/
def infeasibleMessage (status : String) : String :=
  "Could not generate schedule (Solver status: " ++ status ++ "). Constraints may be too tight."

/-- Embeds `len(self.all_classrooms) * len(DAYS) * len(PERIODS)`. -/
def availableSlots (inp : SchedulerInput) : Nat :=
  inp.allClassrooms.length * DAYS.length * PERIODS.length

/-- Embeds `solve()`: derive the requirements, take the two structural early
returns, otherwise consume the solver's response; on OPTIMAL or FEASIBLE
run `_save_results` (delete all rows, bulk-insert the new ones), else
leave the table as it was. -/
def solve (inp : SchedulerInput) (resp : SolverResponse) (db : List ScheduledClass) :
    SolveOutcome :=
  let reqs := prepareClassRequirements inp.offerings
  if reqs.isEmpty then
    { ok := false, message := noRequirementsMessage, db := db }
  else if reqs.length > availableSlots inp then
    { ok := false, message := capacityMessage reqs.length (availableSlots inp), db := db }
  else
    match resp.status with
    | SolverStatus.OPTIMAL =>
        { ok := true, message := successMessage,
          db := saveResults reqs inp.allClassrooms resp.assignment }
    | SolverStatus.FEASIBLE =>
        { ok := true, message := successMessage,
          db := saveResults reqs inp.allClassrooms resp.assignment }
    | st =>
        { ok := false, message := infeasibleMessage (statusName st), db := db }

/-- Spec-side description (§4.1 of the spec) of the sessions one offering
contributes, without ids: the first assignment responsible for theory, if
any, yields `required_theory_hours` THEORY sessions, and analogously for
tutorials. -/
structure SessionSpec where
  subjectId : Nat
  sectionId : Nat
  facultyId : Nat
  kind : ClassType
deriving DecidableEq, Repr

/-- Spec-side session list of one offering (first responsible assignment
wins; one session per required hour). -/
def offeringSessionsSpec (off : CourseOffering) : List SessionSpec :=
  (match off.facultyAssignments.find? responsibleForTheory with
   | some a =>
       List.replicate off.requiredTheoryHours
         { subjectId := off.subjectId, sectionId := off.sectionId,
           facultyId := a.facultyId, kind := ClassType.THEORY }
   | none => []) ++
  (match off.facultyAssignments.find? responsibleForTutorial with
   | some a =>
       List.replicate off.requiredTutorialHours
         { subjectId := off.subjectId, sectionId := off.sectionId,
           facultyId := a.facultyId, kind := ClassType.TUTORIAL }
   | none => [])

/-- A numbered session turned into a requirement record. -/
def specRequirement (k : Nat × SessionSpec) : Requirement :=
  { id := k.1, subjectId := k.2.subjectId, sectionId := k.2.sectionId,
    facultyId := k.2.facultyId, classType := k.2.kind }

/-- Rows an offering contributes per session kind: its required hours when
a responsible assignment exists, otherwise zero. -/
def emittedCount (off : CourseOffering) : ClassType → Nat
  | ClassType.THEORY =>
      match off.facultyAssignments.find? responsibleForTheory with
      | some _ => off.requiredTheoryHours
      | none => 0
  | ClassType.TUTORIAL =>
      match off.facultyAssignments.find? responsibleForTutorial with
      | some _ => off.requiredTutorialHours
      | none => 0

/-- The rows of `saveResults` coming from one requirement, in insertion
order. -/
def placedRows (r : Requirement) (rooms : List Nat) (a : Assignment) : List ScheduledClass :=
  DAYS.flatMap fun d =>
    PERIODS.flatMap fun p =>
      (rooms.filter fun c => a r.id d p c).map fun c => toScheduledClass r d p c

/-- A one-offering, one-faculty, one-room fixture (Scenario-A-like, with a
single theory hour). -/
def demoOffering : CourseOffering :=
  { subjectId := 1, sectionId := 1, requiredTheoryHours := 1, requiredTutorialHours := 0,
    facultyAssignments := [{ facultyId := 1, responsibility := Responsibility.ALL }] }

/-- Input fixture around `demoOffering`. -/
def demoInput : SchedulerInput :=
  { allSections := [1], allClassrooms := [1], allFaculties := [1], offerings := [demoOffering] }

/-- A concrete assignment placing requirement 0 at day 1, period 1,
room 1. -/
def demoAssignment : Assignment :=
  fun i d p c => i == 0 && d == 1 && p == 1 && c == 1

/-- An offering that needs a theory hour but has no faculty assignment at
all, so the deriver silently emits nothing for it. -/
def orphanOffering : CourseOffering :=
  { subjectId := 2, sectionId := 1, requiredTheoryHours := 1, requiredTutorialHours := 0,
    facultyAssignments := [] }

/-- Input with one staffed and one unstaffed offering. -/
def orphanInput : SchedulerInput :=
  { allSections := [1], allClassrooms := [1], allFaculties := [1],
    offerings := [demoOffering, orphanOffering] }

/-- Input with no classrooms at all: one requirement but zero slots. -/
def overloadedInput : SchedulerInput :=
  { allSections := [1], allClassrooms := [], allFaculties := [1],
    offerings := [demoOffering] }

/-- Input with no offerings, hence no derivable requirements. -/
def emptyInput : SchedulerInput :=
  { allSections := [1], allClassrooms := [1], allFaculties := [1], offerings := [] }

/-- An offering needing 49 theory hours: one more than the 48 slots one
classroom offers on the fixed 6-day, 8-period grid. -/
def bigOffering : CourseOffering :=
  { subjectId := 1, sectionId := 1, requiredTheoryHours := 49, requiredTutorialHours := 0,
    facultyAssignments := [{ facultyId := 1, responsibility := Responsibility.ALL }] }

/-- Input around `bigOffering` with a single classroom. -/
def bigInput : SchedulerInput :=
  { allSections := [1], allClassrooms := [1], allFaculties := [1], offerings := [bigOffering] }

/-- An offering with a responsible faculty assignment but zero required
hours of both kinds. -/
def zeroOffering : CourseOffering :=
  { subjectId := 3, sectionId := 1, requiredTheoryHours := 0, requiredTutorialHours := 0,
    facultyAssignments := [{ facultyId := 1, responsibility := Responsibility.ALL }] }

/-- Input whose only offering requires zero hours. -/
def zeroInput : SchedulerInput :=
  { allSections := [1], allClassrooms := [1], allFaculties := [1], offerings := [zeroOffering] }

/-- A leftover row from an earlier run, used to observe the destructive
replace. -/
def oldRow : ScheduledClass :=
  { day := 2, period := 2, classroomId := 1, facultyId := 1, subjectId := 1, sectionId := 1,
    classType := ClassType.THEORY }

theorem activityPair_iff (c1 c2 : Nat) : activityPair c1 c2 ↔ c1 + c2 ≤ 1 := by
  constructor
  · rintro ⟨b1, b2, h1, h2, h3⟩
    cases b1 <;> cases b2 <;> simp_all
  · intro h
    have h1 : c1 = 0 ∨ c1 = 1 := by omega
    have h2 : c2 = 0 ∨ c2 = 1 := by omega
    refine ⟨decide (c1 = 1), decide (c2 = 1), ?_, ?_, ?_⟩ <;>
      rcases h1 with h1 | h1 <;> rcases h2 with h2 | h2 <;> subst h1 <;> subst h2 <;> simp_all

theorem countP_eq_sum_map {α : Type} (q : α → Bool) (l : List α) :
    l.countP q = (l.map fun x => if q x then 1 else 0).sum := by
  induction l with
  | nil => rfl
  | cons x xs ih => by_cases h : q x <;> simp [List.countP_cons, h, ih] <;> omega

theorem sum_single_key {α β : Type} [DecidableEq β] (key : α → β) (g : α → Nat) :
    ∀ l : List α, (l.map key).Nodup → ∀ x0 ∈ l,
      (∀ x ∈ l, key x ≠ key x0 → g x = 0) → (l.map g).sum = g x0 := by
  intro l
  induction l with
  | nil => intro _ x0 h0; cases h0
  | cons x rest ih =>
      intro hnd x0 hx0 hg
      rw [List.map_cons, List.nodup_cons] at hnd
      rcases List.mem_cons.mp hx0 with rfl | hmem
      · have hrest : (rest.map g).sum = 0 := by
          apply List.sum_eq_zero
          intro n hn
          rcases List.mem_map.mp hn with ⟨y, hy, rfl⟩
          refine hg y (List.mem_cons_of_mem _ hy) ?_
          intro he
          exact hnd.1 (he ▸ List.mem_map_of_mem key hy)
        simp [hrest]
      · have hxne : key x ≠ key x0 := by
          intro he
          exact hnd.1 (he ▸ List.mem_map_of_mem key hmem)
        have hx : g x = 0 := hg x (List.mem_cons_self x rest) hxne
        have hr := ih hnd.2 x0 hmem fun y hy hne => hg y (List.mem_cons_of_mem _ hy) hne
        simp [hx, hr]

theorem sum_single_of_nodup (l : List Nat) (hl : l.Nodup) (g : Nat → Nat) (x0 : Nat)
    (hg : ∀ x ∈ l, x ≠ x0 → g x = 0) :
    (l.map g).sum = if x0 ∈ l then g x0 else 0 := by
  by_cases hx : x0 ∈ l
  · rw [if_pos hx]
    exact sum_single_key id g l (by simpa using hl) x0 hx (by simpa using hg)
  · rw [if_neg hx]
    apply List.sum_eq_zero
    intro n hn
    rcases List.mem_map.mp hn with ⟨y, hy, rfl⟩
    exact hg y hy fun he => hx (he ▸ hy)

theorem sum_map_filter {α : Type} (q : α → Bool) (f : α → Nat) (l : List α) :
    ((l.filter q).map f).sum = (l.map fun x => if q x then f x else 0).sum := by
  induction l with
  | nil => rfl
  | cons x xs ih => by_cases h : q x <;> simp [List.filter_cons, h, ih]

theorem countP_enumFrom {α : Type} (q : α → Bool) (l : List α) :
    ∀ n, (List.enumFrom n l).countP (fun k => q k.2) = l.countP q := by
  induction l with
  | nil => intro n; rfl
  | cons x xs ih => intro n; simp [List.enumFrom_cons, List.countP_cons, ih]

theorem map_fst_enumFrom {α : Type} (l : List α) :
    ∀ n, (List.enumFrom n l).map Prod.fst = List.range' n l.length := by
  induction l with
  | nil => intro n; rfl
  | cons x xs ih => intro n; simp [List.enumFrom_cons, List.range'_succ, ih]

theorem enumFrom_replicate {α : Type} (t : α) :
    ∀ (n c : Nat), List.enumFrom c (List.replicate n t) =
      (List.range' c n).map fun i => (i, t) := by
  intro n
  induction n with
  | zero => intro c; rfl
  | succ n ih => intro c; simp [List.replicate_succ, List.range'_succ, List.enumFrom_cons, ih]

theorem emitOffering_eq (off : CourseOffering) (c : Nat) :
    emitOffering off c =
      ((List.enumFrom c (offeringSessionsSpec off)).map specRequirement,
        c + (offeringSessionsSpec off).length) := by
  unfold emitOffering offeringSessionsSpec
  cases h1 : off.facultyAssignments.find? responsibleForTheory <;>
    cases h2 : off.facultyAssignments.find? responsibleForTutorial <;>
      simp [List.enumFrom_append, enumFrom_replicate, specRequirement, List.map_map,
        Function.comp, Nat.add_assoc] <;>
      rfl

theorem prepareFrom_eq (offs : List CourseOffering) :
    ∀ c, prepareFrom offs c =
      (List.enumFrom c (offs.flatMap offeringSessionsSpec)).map specRequirement := by
  induction offs with
  | nil => intro c; rfl
  | cons off rest ih =>
      intro c
      simp [prepareFrom, emitOffering_eq, ih, List.flatMap_cons, List.enumFrom_append]

theorem prepare_map_id (offs : List CourseOffering) :
    (prepareClassRequirements offs).map Requirement.id =
      List.range' 0 (offs.flatMap offeringSessionsSpec).length := by
  rw [prepareClassRequirements, prepareFrom_eq, List.map_map]
  have hcomp : Requirement.id ∘ specRequirement = Prod.fst := by
    funext k; rfl
  rw [hcomp, map_fst_enumFrom]

theorem prepare_ids_nodup (offs : List CourseOffering) :
    ((prepareClassRequirements offs).map Requirement.id).Nodup := by
  rw [prepare_map_id]
  exact List.nodup_range' _ _

theorem flatMap_congr_mem {α β : Type} {l : List α} {f g : α → List β}
    (h : ∀ x ∈ l, f x = g x) : l.flatMap f = l.flatMap g := by
  induction l with
  | nil => rfl
  | cons x xs ih =>
      simp only [List.flatMap_cons]
      rw [h x (List.mem_cons_self x xs), ih fun y hy => h y (List.mem_cons_of_mem _ hy)]

theorem find?_eq_self_of_nodup {reqs : List Requirement}
    (h : (reqs.map Requirement.id).Nodup) {r : Requirement} (hr : r ∈ reqs) :
    (reqs.find? fun x => x.id == r.id) = some r := by
  induction reqs with
  | nil => cases hr
  | cons x rest ih =>
      rw [List.map_cons, List.nodup_cons] at h
      rcases List.mem_cons.mp hr with rfl | hr'
      · exact List.find?_cons_of_pos _ (by simp)
      · have hne : (x.id == r.id) = false := by
          refine beq_eq_false_iff_ne.mpr ?_
          intro he
          exact h.1 (he ▸ List.mem_map_of_mem Requirement.id hr')
        rw [List.find?_cons_of_neg _ (by simp [hne]), ih h.2 hr']

theorem filterMap_if_eq {β : Type} (l : List Nat) (q : Nat → Bool) (f : Nat → β) :
    (l.filterMap fun c => if q c then some (f c) else none) = (l.filter q).map f := by
  induction l with
  | nil => rfl
  | cons x xs ih => by_cases h : q x <;> simp [List.filterMap_cons, List.filter_cons, h, ih]

theorem saveResults_eq_flatMap (reqs : List Requirement) (rooms : List Nat) (a : Assignment)
    (hids : (reqs.map Requirement.id).Nodup) :
    saveResults reqs rooms a = reqs.flatMap fun r => placedRows r rooms a := by
  unfold saveResults varKeys
  rw [List.filterMap_flatMap]
  refine flatMap_congr_mem ?_
  intro r hr
  rw [List.filterMap_flatMap]
  unfold placedRows
  refine flatMap_congr_mem ?_
  intro d _
  rw [List.filterMap_flatMap]
  refine flatMap_congr_mem ?_
  intro p _
  rw [List.filterMap_map]
  have hfind : (reqs.find? fun x => x.id == r.id) = some r := find?_eq_self_of_nodup hids hr
  have hfun : ∀ c : Nat,
      ((fun k => match k with
        | (i, d, p, c) =>
            if a i d p c then
              match reqs.find? fun r => r.id == i with
              | some r => some (toScheduledClass r d p c)
              | none => none
            else none) ∘ fun c => (r.id, d, p, c)) c =
        if a r.id d p c then some (toScheduledClass r d p c) else none := by
    intro c
    simp only [Function.comp]
    by_cases h : a r.id d p c
    · rw [if_pos h, hfind, if_pos h]
    · rw [if_neg h, if_neg h]
  rw [List.filterMap_congr fun c _ => hfun c, filterMap_if_eq]

theorem length_placedRows (r : Requirement) (rooms : List Nat) (a : Assignment) :
    (placedRows r rooms a).length = reqPlacedCount r.id rooms a := by
  unfold placedRows reqPlacedCount roomHits
  rw [List.length_flatMap]
  congr 1
  apply List.map_congr_left
  intro d _
  simp only [Function.comp, List.length_flatMap, List.map_map]
  congr 1
  apply List.map_congr_left
  intro p _
  simp [Function.comp]

theorem countP_congr_eq {α : Type} {p q : α → Bool} {l : List α}
    (h : ∀ x ∈ l, p x = q x) : l.countP p = l.countP q :=
  List.countP_congr fun x hx => by rw [h x hx]

theorem sum_grid_single (f : Nat → Nat → Nat) (d0 p0 : Nat)
    (hvanish : ∀ d ∈ DAYS, ∀ p ∈ PERIODS, ¬(d = d0 ∧ p = p0) → f d p = 0) :
    (DAYS.map fun d => (PERIODS.map fun p => f d p).sum).sum =
      if d0 ∈ DAYS ∧ p0 ∈ PERIODS then f d0 p0 else 0 := by
  have hD : DAYS.Nodup := List.nodup_range' _ _
  have hP : PERIODS.Nodup := List.nodup_range' _ _
  have hinner : ∀ d ∈ DAYS, (PERIODS.map fun p => f d p).sum =
      if d = d0 then (if p0 ∈ PERIODS then f d0 p0 else 0) else 0 := by
    intro d hd
    by_cases hdd : d = d0
    · subst hdd
      rw [if_pos rfl]
      rw [sum_single_of_nodup PERIODS hP (fun p => f d p) p0]
      intro p hp hpp
      exact hvanish d hd p hp fun hand => hpp hand.2
    · rw [if_neg hdd]
      apply List.sum_eq_zero
      intro n hn
      rcases List.mem_map.mp hn with ⟨p, hp, rfl⟩
      exact hvanish d hd p hp fun hand => hdd hand.1
  rw [List.map_congr_left hinner,
    sum_single_of_nodup DAYS hD _ d0 (fun d _ hdd => if_neg hdd)]
  by_cases hd0 : d0 ∈ DAYS <;> by_cases hp0 : p0 ∈ PERIODS <;> simp [hd0, hp0]

theorem countP_placedRows_slot (r : Requirement) (rooms : List Nat) (a : Assignment)
    (pred : ScheduledClass → Bool) (qR : Requirement → Bool) (qC : Nat → Bool) (d0 p0 : Nat)
    (hpred : ∀ d p c, pred (toScheduledClass r d p c) = (qR r && (d == d0) && (p == p0) && qC c)) :
    (placedRows r rooms a).countP pred =
      if d0 ∈ DAYS ∧ p0 ∈ PERIODS then
        (if qR r then ((rooms.filter fun c => a r.id d0 p0 c).countP qC) else 0)
      else 0 := by
  unfold placedRows
  rw [List.countP_flatMap]
  have hshape : ∀ d ∈ DAYS,
      (List.countP pred ∘ fun d =>
        PERIODS.flatMap fun p =>
          (rooms.filter fun c => a r.id d p c).map fun c => toScheduledClass r d p c) d =
      (PERIODS.map fun p =>
        (if qR r && (d == d0) && (p == p0) then
          ((rooms.filter fun c => a r.id d p c).countP qC) else 0)).sum := by
    intro d _
    simp only [Function.comp, List.countP_flatMap, List.map_map]
    congr 1
    apply List.map_congr_left
    intro p _
    simp only [Function.comp, List.countP_map]
    refine (countP_congr_eq fun c _ => hpred d p c).trans ?_
    by_cases hb : (qR r && (d == d0) && (p == p0)) = true
    · rw [if_pos hb]
      apply countP_congr_eq
      intro c _
      rw [hb, Bool.true_and]
    · have hbf : (qR r && (d == d0) && (p == p0)) = false := by
        revert hb
        cases qR r && (d == d0) && (p == p0) <;> simp
      rw [if_neg hb]
      have hz : ∀ c ∈ rooms.filter fun c => a r.id d p c,
          (qR r && (d == d0) && (p == p0) && qC c) = (fun _ => false) c := by
        intro c _
        rw [hbf, Bool.false_and]
      rw [countP_congr_eq hz, List.countP_false]
      rfl
  rw [List.map_congr_left hshape]
  have hv : ∀ d ∈ DAYS, ∀ p ∈ PERIODS, ¬(d = d0 ∧ p = p0) →
      (fun d p => if qR r && (d == d0) && (p == p0) then
        ((rooms.filter fun c => a r.id d p c).countP qC) else 0) d p = 0 := by
    intro d _ p _ hne
    simp only
    rw [if_neg]
    intro hand
    simp only [Bool.and_eq_true, beq_iff_eq] at hand
    exact hne ⟨hand.1.2, hand.2⟩
  have hg := sum_grid_single
    (fun d p => if qR r && (d == d0) && (p == p0) then
      ((rooms.filter fun c => a r.id d p c).countP qC) else 0) d0 p0 hv
  exact hg.trans (by by_cases hq : qR r <;> simp [hq])

theorem countP_saveResults_slot (reqs : List Requirement) (rooms : List Nat) (a : Assignment)
    (hids : (reqs.map Requirement.id).Nodup)
    (pred : ScheduledClass → Bool) (qR : Requirement → Bool) (qC : Nat → Bool) (d0 p0 : Nat)
    (hpred : ∀ r d p c, pred (toScheduledClass r d p c) = (qR r && (d == d0) && (p == p0) && qC c))
    (hd0 : d0 ∈ DAYS) (hp0 : p0 ∈ PERIODS) :
    (saveResults reqs rooms a).countP pred =
      ((reqs.filter qR).map fun r => ((rooms.filter fun c => a r.id d0 p0 c).countP qC)).sum := by
  rw [saveResults_eq_flatMap reqs rooms a hids, List.countP_flatMap]
  have heach : ∀ r ∈ reqs, (List.countP pred ∘ fun r => placedRows r rooms a) r =
      (if qR r then ((rooms.filter fun c => a r.id d0 p0 c).countP qC) else 0) := by
    intro r _
    simp only [Function.comp]
    rw [countP_placedRows_slot r rooms a pred qR qC d0 p0 (hpred r), if_pos ⟨hd0, hp0⟩]
  rw [List.map_congr_left heach]
  exact (sum_map_filter qR _ reqs).symm

theorem countP_placedRows_attr (r : Requirement) (rooms : List Nat) (a : Assignment)
    (pred : ScheduledClass → Bool) (qR : Requirement → Bool)
    (hpred : ∀ d p c, pred (toScheduledClass r d p c) = qR r) :
    (placedRows r rooms a).countP pred =
      if qR r then (placedRows r rooms a).length else 0 := by
  have hmem : ∀ sc ∈ placedRows r rooms a, pred sc = qR r := by
    intro sc hsc
    simp only [placedRows, List.mem_flatMap, List.mem_map, List.mem_filter] at hsc
    rcases hsc with ⟨d, _, p, _, c, _, rfl⟩
    exact hpred d p c
  by_cases hq : qR r = true
  · rw [if_pos hq, countP_congr_eq fun sc h => (hmem sc h).trans hq, List.countP_true]
  · have hqf : qR r = false := by
      revert hq
      cases qR r <;> simp
    rw [if_neg hq, countP_congr_eq fun sc h => (hmem sc h).trans hqf, List.countP_false]
    rfl

theorem countP_saveResults_attr (reqs : List Requirement) (rooms : List Nat) (a : Assignment)
    (hids : (reqs.map Requirement.id).Nodup)
    (pred : ScheduledClass → Bool) (qR : Requirement → Bool)
    (hpred : ∀ r ∈ reqs, ∀ d p c, pred (toScheduledClass r d p c) = qR r)
    (hone : ∀ r ∈ reqs, reqPlacedCount r.id rooms a = 1) :
    (saveResults reqs rooms a).countP pred = reqs.countP qR := by
  rw [saveResults_eq_flatMap reqs rooms a hids, List.countP_flatMap]
  have heach : ∀ r ∈ reqs, (List.countP pred ∘ fun r => placedRows r rooms a) r =
      if qR r then 1 else 0 := by
    intro r hr
    simp only [Function.comp]
    rw [countP_placedRows_attr r rooms a pred qR (hpred r hr), length_placedRows, hone r hr]
  rw [List.map_congr_left heach, ← countP_eq_sum_map]

theorem length_saveResults (reqs : List Requirement) (rooms : List Nat) (a : Assignment)
    (hids : (reqs.map Requirement.id).Nodup)
    (hone : ∀ r ∈ reqs, reqPlacedCount r.id rooms a = 1) :
    (saveResults reqs rooms a).length = reqs.length := by
  rw [saveResults_eq_flatMap reqs rooms a hids, List.length_flatMap]
  have heach : ∀ r ∈ reqs, (List.length ∘ fun r => placedRows r rooms a) r = 1 := by
    intro r hr
    simp only [Function.comp]
    rw [length_placedRows, hone r hr]
  rw [List.map_congr_left heach]
  simp

theorem trueCount_eq_sum (reqs' : List Requirement) (rooms : List Nat) (a : Assignment)
    (d p : Nat) :
    trueCount (reqs'.map Requirement.id) rooms a d p =
      (reqs'.map fun r => (rooms.filter fun c => a r.id d p c).length).sum := by
  unfold trueCount roomHits
  rw [List.map_map]
  rfl

theorem count_filter_le_indicator (rooms : List Nat) (hrooms : rooms.Nodup)
    (q : Nat → Bool) (c0 : Nat) :
    (rooms.filter q).countP (fun c => c == c0) ≤ if q c0 then 1 else 0 := by
  by_cases hq : q c0 = true
  · rw [if_pos hq]
    have hnd : (rooms.filter q).Nodup := hrooms.filter q
    exact List.nodup_iff_count_le_one.mp hnd c0
  · rw [if_neg hq]
    rw [List.countP_eq_zero.mpr]
    intro c hc
    rcases List.mem_filter.mp hc with ⟨_, hcq⟩
    intro hbeq
    rw [show c = c0 from by simpa using hbeq] at hcq
    exact hq hcq

theorem mem_offeringSessionsSpec (off : CourseOffering) (t : SessionSpec)
    (ht : t ∈ offeringSessionsSpec off) :
    t.subjectId = off.subjectId ∧ t.sectionId = off.sectionId := by
  unfold offeringSessionsSpec at ht
  rcases List.mem_append.mp ht with h | h
  · cases hf : off.facultyAssignments.find? responsibleForTheory with
    | none => rw [hf] at h; cases h
    | some a =>
        rw [hf] at h
        rw [List.eq_of_mem_replicate h]
        exact ⟨rfl, rfl⟩
  · cases hf : off.facultyAssignments.find? responsibleForTutorial with
    | none => rw [hf] at h; cases h
    | some a =>
        rw [hf] at h
        rw [List.eq_of_mem_replicate h]
        exact ⟨rfl, rfl⟩

theorem mem_prepare_subject_section (offs : List CourseOffering) (r : Requirement)
    (hr : r ∈ prepareClassRequirements offs) :
    ∃ o ∈ offs, r.subjectId = o.subjectId ∧ r.sectionId = o.sectionId := by
  rw [prepareClassRequirements, prepareFrom_eq] at hr
  rcases List.mem_map.mp hr with ⟨k, hk, rfl⟩
  have hk2 : k.2 ∈ offs.flatMap offeringSessionsSpec := by
    have hmm := List.mem_map_of_mem Prod.snd hk
    rwa [List.enumFrom_map_snd] at hmm
  rcases List.mem_flatMap.mp hk2 with ⟨o, ho, hto⟩
  have hattr := mem_offeringSessionsSpec o k.2 hto
  exact ⟨o, ho, hattr.1, hattr.2⟩

theorem countP_prepare (offs : List CourseOffering) (qR : Requirement → Bool)
    (qS : SessionSpec → Bool) (hq : ∀ k : Nat × SessionSpec, qR (specRequirement k) = qS k.2) :
    (prepareClassRequirements offs).countP qR =
      (offs.flatMap offeringSessionsSpec).countP qS := by
  rw [prepareClassRequirements, prepareFrom_eq, List.countP_map]
  exact (countP_congr_eq fun k _ => hq k).trans (countP_enumFrom qS _ 0)

theorem countP_sessions_self (off : CourseOffering) (k : ClassType) :
    (offeringSessionsSpec off).countP
      (fun t => t.subjectId == off.subjectId && t.sectionId == off.sectionId && t.kind == k) =
      emittedCount off k := by
  unfold offeringSessionsSpec emittedCount
  cases h1 : off.facultyAssignments.find? responsibleForTheory <;>
    cases h2 : off.facultyAssignments.find? responsibleForTutorial <;>
      cases k <;>
        simp [List.countP_append, List.countP_replicate]

theorem countP_sessions_other (off o0 : CourseOffering) (k : ClassType)
    (hne : off.subjectId ≠ o0.subjectId ∨ off.sectionId ≠ o0.sectionId) :
    (offeringSessionsSpec off).countP
      (fun t => t.subjectId == o0.subjectId && t.sectionId == o0.sectionId && t.kind == k) = 0 := by
  rw [List.countP_eq_zero]
  intro t ht
  have hattr := mem_offeringSessionsSpec off t ht
  rcases hne with h | h <;> simp [hattr.1, hattr.2, h]

theorem countP_prepare_offering (offs : List CourseOffering)
    (hkeys : (offs.map fun o => (o.subjectId, o.sectionId)).Nodup)
    (o0 : CourseOffering) (ho : o0 ∈ offs) (k : ClassType) :
    (prepareClassRequirements offs).countP
      (fun r => r.subjectId == o0.subjectId && r.sectionId == o0.sectionId && r.classType == k) =
      emittedCount o0 k := by
  rw [countP_prepare offs _
    (fun t => t.subjectId == o0.subjectId && t.sectionId == o0.sectionId && t.kind == k)
    (fun kk => rfl)]
  rw [List.countP_flatMap]
  have hvanish : ∀ o ∈ offs,
      (fun o => (o.subjectId, o.sectionId)) o ≠ (fun o => (o.subjectId, o.sectionId)) o0 →
      (List.countP
        (fun t => t.subjectId == o0.subjectId && t.sectionId == o0.sectionId && t.kind == k) ∘
          offeringSessionsSpec) o = 0 := by
    intro o _ hne
    have hne2 : o.subjectId ≠ o0.subjectId ∨ o.sectionId ≠ o0.sectionId := by
      by_contra hcon
      push_neg at hcon
      exact hne (by simp [hcon.1, hcon.2])
    exact countP_sessions_other o o0 k hne2
  rw [sum_single_key (fun o => (o.subjectId, o.sectionId)) _ offs hkeys o0 ho hvanish]
  exact countP_sessions_self o0 k

theorem prepareFrom_zero (offs : List CourseOffering)
    (h : ∀ o ∈ offs, o.requiredTheoryHours = 0 ∧ o.requiredTutorialHours = 0) :
    ∀ c, prepareFrom offs c = [] := by
  induction offs with
  | nil => intro c; rfl
  | cons off rest ih =>
      intro c
      have h0 := h off (List.mem_cons_self _ _)
      have hemit : (emitOffering off c).1 = [] := by
        unfold emitOffering
        cases h1 : off.facultyAssignments.find? responsibleForTheory <;>
          cases h2 : off.facultyAssignments.find? responsibleForTutorial <;>
            simp [h0.1, h0.2]
      simp [prepareFrom, hemit, ih fun o ho => h o (List.mem_cons_of_mem _ ho)]

theorem solve_eq_no_reqs (inp : SchedulerInput)
    (h : prepareClassRequirements inp.offerings = []) (resp : SolverResponse)
    (db : List ScheduledClass) :
    solve inp resp db = { ok := false, message := noRequirementsMessage, db := db } := by
  simp [solve, h]

theorem solve_eq_capacity (inp : SchedulerInput)
    (hne : prepareClassRequirements inp.offerings ≠ [])
    (hover : (prepareClassRequirements inp.offerings).length > availableSlots inp)
    (resp : SolverResponse) (db : List ScheduledClass) :
    solve inp resp db =
      { ok := false,
        message := (capacityMessage (prepareClassRequirements inp.offerings).length
          (availableSlots inp)),
        db := db } := by
  have h1 : (prepareClassRequirements inp.offerings).isEmpty = false :=
    List.isEmpty_eq_false.mpr hne
  simp [solve, h1, hover]

theorem solve_eq_success (inp : SchedulerInput)
    (hne : prepareClassRequirements inp.offerings ≠ [])
    (hcap : ¬(prepareClassRequirements inp.offerings).length > availableSlots inp)
    (resp : SolverResponse)
    (hst : resp.status = SolverStatus.OPTIMAL ∨ resp.status = SolverStatus.FEASIBLE)
    (db : List ScheduledClass) :
    solve inp resp db =
      { ok := true,
        message := successMessage,
        db := (saveResults (prepareClassRequirements inp.offerings) inp.allClassrooms
          resp.assignment) } := by
  have h1 : (prepareClassRequirements inp.offerings).isEmpty = false :=
    List.isEmpty_eq_false.mpr hne
  rcases hst with h | h <;> simp [solve, h1, hcap, h]

theorem solve_eq_nonsuccess (inp : SchedulerInput)
    (hne : prepareClassRequirements inp.offerings ≠ [])
    (hcap : ¬(prepareClassRequirements inp.offerings).length > availableSlots inp)
    (resp : SolverResponse)
    (h1 : resp.status ≠ SolverStatus.OPTIMAL) (h2 : resp.status ≠ SolverStatus.FEASIBLE)
    (db : List ScheduledClass) :
    solve inp resp db =
      { ok := false,
        message := (infeasibleMessage (statusName resp.status)),
        db := db } := by
  have he : (prepareClassRequirements inp.offerings).isEmpty = false :=
    List.isEmpty_eq_false.mpr hne
  rcases resp with ⟨st, asg⟩
  cases st <;> simp_all [solve, he, hcap]

theorem mem_saveResults (reqs : List Requirement) (rooms : List Nat) (a : Assignment)
    (sc : ScheduledClass) (h : sc ∈ saveResults reqs rooms a) :
    sc.day ∈ DAYS ∧ sc.period ∈ PERIODS ∧ sc.classroomId ∈ rooms ∧
    ∃ r ∈ reqs, sc.facultyId = r.facultyId ∧ sc.subjectId = r.subjectId ∧
      sc.sectionId = r.sectionId ∧ sc.classType = r.classType ∧
      a r.id sc.day sc.period sc.classroomId = true := by
  unfold saveResults varKeys at h
  rcases List.mem_filterMap.mp h with ⟨k, hk, hfk⟩
  rcases List.mem_flatMap.mp hk with ⟨r0, hr0, hk1⟩
  rcases List.mem_flatMap.mp hk1 with ⟨d, hd, hk2⟩
  rcases List.mem_flatMap.mp hk2 with ⟨p, hp, hk3⟩
  rcases List.mem_map.mp hk3 with ⟨c, hc, rfl⟩
  dsimp only at hfk
  by_cases hb : a r0.id d p c = true
  · rw [if_pos hb] at hfk
    cases hfind : reqs.find? fun r => r.id == r0.id with
    | none => rw [hfind] at hfk; cases hfk
    | some r =>
        rw [hfind] at hfk
        have hsc : toScheduledClass r d p c = sc := Option.some.inj hfk
        have hrmem : r ∈ reqs := List.mem_of_find?_eq_some hfind
        have hid : r.id = r0.id := by simpa using List.find?_some hfind
        subst hsc
        exact ⟨hd, hp, hc, r, hrmem, rfl, rfl, rfl, rfl, by simpa [toScheduledClass, hid] using hb⟩
  · rw [if_neg hb] at hfk
    cases hfk

theorem countP_saveResults_group (reqs : List Requirement) (rooms : List Nat) (a : Assignment)
    (hids : (reqs.map Requirement.id).Nodup)
    (qR : Requirement → Bool) (d p : Nat) (hd : d ∈ DAYS) (hp : p ∈ PERIODS)
    (pred : ScheduledClass → Bool)
    (hpred : ∀ r d' p' c, pred (toScheduledClass r d' p' c) = (qR r && (d' == d) && (p' == p))) :
    (saveResults reqs rooms a).countP pred =
      trueCount ((reqs.filter qR).map Requirement.id) rooms a d p := by
  rw [countP_saveResults_slot reqs rooms a hids pred qR (fun _ => true) d p
    (fun r d' p' c => by rw [hpred r d' p' c, Bool.and_true]) hd hp]
  have hstep :
      List.map (fun r => List.countP (fun _ => true)
          (List.filter (fun c => a r.id d p c) rooms)) (List.filter qR reqs) =
        List.map (fun r => (List.filter (fun c => a r.id d p c) rooms).length)
          (List.filter qR reqs) :=
    List.map_congr_left fun r _ => congrFun List.countP_true _
  rw [hstep]
  exact (trueCount_eq_sum (reqs.filter qR) rooms a d p).symm

/-- C1: in every assignment satisfying the encoded constraints, the rows
materialized by `_save_results` contain no two records sharing the same
(day, period, classroom), the same (day, period, section), or the same
(day, period, faculty): each such slot key matches at most one row. -/
theorem solver_output_conflict_free (inp : SchedulerInput) (a : Assignment)
    (hrooms : inp.allClassrooms.Nodup)
    (hsec : ∀ r ∈ prepareClassRequirements inp.offerings, r.sectionId ∈ inp.allSections)
    (hfac : ∀ r ∈ prepareClassRequirements inp.offerings, r.facultyId ∈ inp.allFaculties)
    (hsat : satisfiesConstraints inp (prepareClassRequirements inp.offerings) a) :
    (∀ d p c : Nat,
      (saveResults (prepareClassRequirements inp.offerings) inp.allClassrooms a).countP
        (fun sc => sc.day == d && sc.period == p && sc.classroomId == c) ≤ 1) ∧
    (∀ d p s : Nat,
      (saveResults (prepareClassRequirements inp.offerings) inp.allClassrooms a).countP
        (fun sc => sc.day == d && sc.period == p && sc.sectionId == s) ≤ 1) ∧
    (∀ d p f : Nat,
      (saveResults (prepareClassRequirements inp.offerings) inp.allClassrooms a).countP
        (fun sc => sc.day == d && sc.period == p && sc.facultyId == f) ≤ 1) := by
  have hids := prepare_ids_nodup inp.offerings
  have hzero : ∀ pred : ScheduledClass → Bool,
      (∀ sc ∈ saveResults (prepareClassRequirements inp.offerings) inp.allClassrooms a,
        pred sc = true → False) →
      (saveResults (prepareClassRequirements inp.offerings) inp.allClassrooms a).countP
        pred = 0 :=
    fun pred h => List.countP_eq_zero.mpr h
  refine ⟨?_, ?_, ?_⟩
  · -- classroom exclusivity
    intro d p c
    by_cases hd : d ∈ DAYS
    · by_cases hp : p ∈ PERIODS
      · by_cases hc : c ∈ inp.allClassrooms
        · rw [countP_saveResults_slot _ _ a hids _ (fun _ => true) (fun x => x == c) d p
            (fun r d' p' c' => by simp [toScheduledClass]) hd hp]
          rw [List.filter_true]
          have hbound := List.sum_le_sum (l := prepareClassRequirements inp.offerings)
            (f := fun r =>
              ((inp.allClassrooms.filter fun c' => a r.id d p c').countP fun x => x == c))
            (g := fun r => if a r.id d p c then 1 else 0)
            (fun r _ => count_filter_le_indicator inp.allClassrooms hrooms _ c)
          refine le_trans hbound ?_
          rw [← countP_eq_sum_map]
          have h3 := hsat.2.2.1 d hd p hp c hc
          rwa [List.countP_map] at h3
        · refine le_of_eq ?_ |>.trans (Nat.zero_le 1)
          apply hzero
          intro sc hsc hpred
          simp only [Bool.and_eq_true, beq_iff_eq] at hpred
          exact hc (hpred.2 ▸ (mem_saveResults _ _ _ sc hsc).2.2.1)
      · refine le_of_eq ?_ |>.trans (Nat.zero_le 1)
        apply hzero
        intro sc hsc hpred
        simp only [Bool.and_eq_true, beq_iff_eq] at hpred
        exact hp (hpred.1.2 ▸ (mem_saveResults _ _ _ sc hsc).2.1)
    · refine le_of_eq ?_ |>.trans (Nat.zero_le 1)
      apply hzero
      intro sc hsc hpred
      simp only [Bool.and_eq_true, beq_iff_eq] at hpred
      exact hd (hpred.1.1 ▸ (mem_saveResults _ _ _ sc hsc).1)
  · -- section exclusivity
    intro d p s
    by_cases hd : d ∈ DAYS
    · by_cases hp : p ∈ PERIODS
      · rw [countP_saveResults_group _ _ a hids (fun r => r.sectionId == s) d p hd hp _
          (fun r d' p' c' => by simp [toScheduledClass, Bool.and_comm, Bool.and_assoc,
            Bool.and_left_comm])]
        cases hfil : (prepareClassRequirements inp.offerings).filter
            fun r => r.sectionId == s with
        | nil => simp [trueCount]
        | cons r0 rest =>
            have hr0 : r0 ∈ (prepareClassRequirements inp.offerings).filter
                fun r => r.sectionId == s := by rw [hfil]; exact List.mem_cons_self _ _
            rcases List.mem_filter.mp hr0 with ⟨hr0m, hr0s⟩
            have hs : s ∈ inp.allSections := by
              have := hsec r0 hr0m
              rwa [show r0.sectionId = s from by simpa using hr0s] at this
            rw [← hfil]
            exact hsat.2.1 d hd p hp s hs
      · refine le_of_eq ?_ |>.trans (Nat.zero_le 1)
        apply hzero
        intro sc hsc hpred
        simp only [Bool.and_eq_true, beq_iff_eq] at hpred
        exact hp (hpred.1.2 ▸ (mem_saveResults _ _ _ sc hsc).2.1)
    · refine le_of_eq ?_ |>.trans (Nat.zero_le 1)
      apply hzero
      intro sc hsc hpred
      simp only [Bool.and_eq_true, beq_iff_eq] at hpred
      exact hd (hpred.1.1 ▸ (mem_saveResults _ _ _ sc hsc).1)
  · -- faculty exclusivity
    intro d p f
    by_cases hd : d ∈ DAYS
    · by_cases hp : p ∈ PERIODS
      · rw [countP_saveResults_group _ _ a hids (fun r => r.facultyId == f) d p hd hp _
          (fun r d' p' c' => by simp [toScheduledClass, Bool.and_comm, Bool.and_assoc,
            Bool.and_left_comm])]
        cases hfil : (prepareClassRequirements inp.offerings).filter
            fun r => r.facultyId == f with
        | nil => simp [trueCount]
        | cons r0 rest =>
            have hr0 : r0 ∈ (prepareClassRequirements inp.offerings).filter
                fun r => r.facultyId == f := by rw [hfil]; exact List.mem_cons_self _ _
            rcases List.mem_filter.mp hr0 with ⟨hr0m, hr0f⟩
            have hf : f ∈ inp.allFaculties := by
              have := hfac r0 hr0m
              rwa [show r0.facultyId = f from by simpa using hr0f] at this
            rw [← hfil]
            refine hsat.2.2.2.1 d hd p hp f hf ?_
            rw [hfil]
            exact List.cons_ne_nil _ _
      · refine le_of_eq ?_ |>.trans (Nat.zero_le 1)
        apply hzero
        intro sc hsc hpred
        simp only [Bool.and_eq_true, beq_iff_eq] at hpred
        exact hp (hpred.1.2 ▸ (mem_saveResults _ _ _ sc hsc).2.1)
    · refine le_of_eq ?_ |>.trans (Nat.zero_le 1)
      apply hzero
      intro sc hsc hpred
      simp only [Bool.and_eq_true, beq_iff_eq] at hpred
      exact hd (hpred.1.1 ▸ (mem_saveResults _ _ _ sc hsc).1)

/-- C1 witness: on the one-offering fixture with the concrete satisfying
assignment, each conflict count is at most one. -/
theorem solver_output_conflict_free_witness :
    ((saveResults (prepareClassRequirements demoInput.offerings) demoInput.allClassrooms
        demoAssignment).countP
      (fun sc => sc.day == 1 && sc.period == 1 && sc.classroomId == 1) ≤ 1) ∧
    ((saveResults (prepareClassRequirements demoInput.offerings) demoInput.allClassrooms
        demoAssignment).countP
      (fun sc => sc.day == 1 && sc.period == 1 && sc.sectionId == 1) ≤ 1) ∧
    ((saveResults (prepareClassRequirements demoInput.offerings) demoInput.allClassrooms
        demoAssignment).countP
      (fun sc => sc.day == 1 && sc.period == 1 && sc.facultyId == 1) ≤ 1) := by
  have h := solver_output_conflict_free demoInput demoAssignment (by decide) (by decide)
    (by decide) (by decide)
  exact ⟨h.1 1 1 1, h.2.1 1 1 1, h.2.2 1 1 1⟩

/-- C2 (amended): in any satisfying assignment, the materializer emits
exactly one row per derived requirement (the output length equals the
requirement count), and the number of rows per (offering, kind) equals the
offering's required-hours field when a responsible faculty assignment for
that kind exists, and zero otherwise. -/
theorem rows_per_offering (inp : SchedulerInput) (a : Assignment)
    (hkeys : (inp.offerings.map fun o => (o.subjectId, o.sectionId)).Nodup)
    (hsat : satisfiesConstraints inp (prepareClassRequirements inp.offerings) a) :
    (saveResults (prepareClassRequirements inp.offerings) inp.allClassrooms a).length =
      (prepareClassRequirements inp.offerings).length ∧
    ∀ o ∈ inp.offerings, ∀ k : ClassType,
      (saveResults (prepareClassRequirements inp.offerings) inp.allClassrooms a).countP
        (fun sc => sc.subjectId == o.subjectId && sc.sectionId == o.sectionId &&
          sc.classType == k) = emittedCount o k := by
  have hids := prepare_ids_nodup inp.offerings
  constructor
  · exact length_saveResults _ _ a hids hsat.1
  · intro o ho k
    rw [countP_saveResults_attr _ _ a hids _
      (fun r => r.subjectId == o.subjectId && r.sectionId == o.sectionId && r.classType == k)
      (fun r _ d p c => rfl) hsat.1]
    exact countP_prepare_offering inp.offerings hkeys o ho k

/-- C2 counterexample: with a staffed offering and an unstaffed one, a
satisfying assignment exists and solve succeeds, yet the unstaffed
offering's required theory hour yields zero output rows, not one. -/
theorem rows_per_offering_counterexample :
    satisfiesConstraints orphanInput (prepareClassRequirements orphanInput.offerings)
      demoAssignment ∧
    (solve orphanInput { status := SolverStatus.OPTIMAL, assignment := demoAssignment } []).ok
      = true ∧
    orphanOffering.requiredTheoryHours = 1 ∧
    ((solve orphanInput { status := SolverStatus.OPTIMAL, assignment := demoAssignment }
        []).db.countP
      (fun sc => sc.subjectId == orphanOffering.subjectId &&
        sc.sectionId == orphanOffering.sectionId && sc.classType == ClassType.THEORY)) = 0 := by
  exact ⟨by decide, by decide, rfl, by decide⟩

/-- C2 witness (for the amended theorem): on the one-offering fixture the
output has one row, matching the single requirement, and the (offering,
THEORY) row count equals its emitted count. -/
theorem rows_per_offering_witness :
    (saveResults (prepareClassRequirements demoInput.offerings) demoInput.allClassrooms
        demoAssignment).length = (prepareClassRequirements demoInput.offerings).length ∧
    (saveResults (prepareClassRequirements demoInput.offerings) demoInput.allClassrooms
        demoAssignment).countP
      (fun sc => sc.subjectId == demoOffering.subjectId &&
        sc.sectionId == demoOffering.sectionId && sc.classType == ClassType.THEORY) =
      emittedCount demoOffering ClassType.THEORY := by
  have h := rows_per_offering demoInput demoAssignment (by decide) (by decide)
  exact ⟨h.1, h.2 demoOffering (by decide) ClassType.THEORY⟩

/-- C3: in any satisfying assignment, for every section, subject, day and
adjacent period pair (p1, p1+1) inside the period range, at most one
materialized row carries that (section, subject) across the two periods:
no back-to-back repetition of a subject for a section. -/
theorem no_adjacent_same_subject (inp : SchedulerInput) (a : Assignment)
    (hsec : ∀ r ∈ prepareClassRequirements inp.offerings, r.sectionId ∈ inp.allSections)
    (hsat : satisfiesConstraints inp (prepareClassRequirements inp.offerings) a) :
    ∀ s subj d p1 : Nat, p1 ∈ PERIODS → p1 + 1 ∈ PERIODS →
      (saveResults (prepareClassRequirements inp.offerings) inp.allClassrooms a).countP
        (fun sc => sc.sectionId == s && sc.subjectId == subj && sc.day == d &&
          sc.period == p1) +
      (saveResults (prepareClassRequirements inp.offerings) inp.allClassrooms a).countP
        (fun sc => sc.sectionId == s && sc.subjectId == subj && sc.day == d &&
          sc.period == p1 + 1) ≤ 1 := by
  have hids := prepare_ids_nodup inp.offerings
  intro s subj d p1 hp1 hp2
  by_cases hd : d ∈ DAYS
  · rw [countP_saveResults_group _ _ a hids
      (fun r => r.sectionId == s && r.subjectId == subj) d p1 hd hp1 _
      (fun r d' p' c' => rfl)]
    rw [countP_saveResults_group _ _ a hids
      (fun r => r.sectionId == s && r.subjectId == subj) d (p1 + 1) hd hp2 _
      (fun r d' p' c' => rfl)]
    cases hfil : (prepareClassRequirements inp.offerings).filter
        fun r => r.sectionId == s && r.subjectId == subj with
    | nil => simp [hfil, trueCount]
    | cons r0 rest =>
        have hr0 : r0 ∈ (prepareClassRequirements inp.offerings).filter
            fun r => r.sectionId == s && r.subjectId == subj := by
          rw [hfil]
          exact List.mem_cons_self _ _
        rcases List.mem_filter.mp hr0 with ⟨hr0m, hr0p⟩
        simp only [Bool.and_eq_true, beq_iff_eq] at hr0p
        have hs : s ∈ inp.allSections := hr0p.1 ▸ hsec r0 hr0m
        rcases mem_prepare_subject_section inp.offerings r0 hr0m with ⟨o, ho, hos, hosec⟩
        have hsubj : subj ∈ subjectsForSection inp.offerings s := by
          unfold subjectsForSection
          rw [List.mem_dedup]
          refine List.mem_map.mpr ⟨o, List.mem_filter.mpr ⟨ho, ?_⟩, ?_⟩
          · simp [← hosec, hr0p.1]
          · rw [← hos, hr0p.2]
        have h5 := hsat.2.2.2.2 s hs subj hsubj d hd p1 hp1 hp2
        rw [activityPair_iff] at h5
        rw [hfil] at h5
        exact h5
  · have hz : ∀ p', (saveResults (prepareClassRequirements inp.offerings)
        inp.allClassrooms a).countP
        (fun sc => sc.sectionId == s && sc.subjectId == subj && sc.day == d &&
          sc.period == p') = 0 := by
      intro p'
      apply List.countP_eq_zero.mpr
      intro sc hsc hpred
      simp only [Bool.and_eq_true, beq_iff_eq] at hpred
      exact hd (hpred.1.2 ▸ (mem_saveResults _ _ _ sc hsc).1)
    rw [hz p1, hz (p1 + 1)]
    exact Nat.zero_le 1

/-- C3 witness: on the one-offering fixture the adjacent-period pair
(1, 2) of day 1 carries at most one row of (section 1, subject 1). -/
theorem no_adjacent_same_subject_witness :
    (saveResults (prepareClassRequirements demoInput.offerings) demoInput.allClassrooms
        demoAssignment).countP
      (fun sc => sc.sectionId == 1 && sc.subjectId == 1 && sc.day == 1 && sc.period == 1) +
    (saveResults (prepareClassRequirements demoInput.offerings) demoInput.allClassrooms
        demoAssignment).countP
      (fun sc => sc.sectionId == 1 && sc.subjectId == 1 && sc.day == 1 && sc.period == 2) ≤ 1 := by
  have h := no_adjacent_same_subject demoInput demoAssignment (by decide) (by decide)
  exact h 1 1 1 1 (by decide) (by decide)

/-- C4: every failing `solve` call leaves the persisted table untouched
(materialization only happens after OPTIMAL or FEASIBLE), and when the
failure is not one of the two structural pre-checks the message embeds the
solver's reported status name. -/
theorem solve_failure_contract (inp : SchedulerInput) (resp : SolverResponse)
    (db : List ScheduledClass) (hfail : (solve inp resp db).ok = false) :
    (solve inp resp db).db = db ∧
    (prepareClassRequirements inp.offerings ≠ [] →
      ¬(prepareClassRequirements inp.offerings).length > availableSlots inp →
      (solve inp resp db).message = infeasibleMessage (statusName resp.status)) := by
  by_cases h1 : prepareClassRequirements inp.offerings = []
  · rw [solve_eq_no_reqs inp h1 resp db]
    exact ⟨rfl, fun hne _ => absurd h1 hne⟩
  · by_cases h2 : (prepareClassRequirements inp.offerings).length > availableSlots inp
    · rw [solve_eq_capacity inp h1 h2 resp db]
      exact ⟨rfl, fun _ hcap => absurd h2 hcap⟩
    · have hopt : resp.status ≠ SolverStatus.OPTIMAL := by
        intro he
        rw [solve_eq_success inp h1 h2 resp (Or.inl he) db] at hfail
        cases hfail
      have hfeas : resp.status ≠ SolverStatus.FEASIBLE := by
        intro he
        rw [solve_eq_success inp h1 h2 resp (Or.inr he) db] at hfail
        cases hfail
      rw [solve_eq_nonsuccess inp h1 h2 resp hopt hfeas db]
      exact ⟨rfl, fun _ _ => rfl⟩

/-- C4 witness: an INFEASIBLE response on the small fixture leaves the
(empty) table unchanged and reports the status name. -/
theorem solve_failure_contract_witness :
    (solve demoInput { status := SolverStatus.INFEASIBLE, assignment := demoAssignment } []).db
      = [] ∧
    (solve demoInput { status := SolverStatus.INFEASIBLE, assignment := demoAssignment }
        []).message
      = infeasibleMessage (statusName SolverStatus.INFEASIBLE) := by
  have h := solve_failure_contract demoInput
    { status := SolverStatus.INFEASIBLE, assignment := demoAssignment } [] (by decide)
  exact ⟨h.1, h.2 (by decide) (by decide)⟩

/-- C5: when the requirement count exceeds |classrooms| * |DAYS| *
|PERIODS|, `solve` returns the capacity failure with both numbers in the
message and the table unchanged, for every solver response: the result
does not depend on the backing solver at all. -/
theorem solve_capacity_precheck (inp : SchedulerInput)
    (hne : prepareClassRequirements inp.offerings ≠ [])
    (hover : (prepareClassRequirements inp.offerings).length > availableSlots inp) :
    ∀ (resp : SolverResponse) (db : List ScheduledClass),
      solve inp resp db =
        { ok := false,
          message := (capacityMessage (prepareClassRequirements inp.offerings).length
            (availableSlots inp)),
          db := db } :=
  fun resp db => solve_eq_capacity inp hne hover resp db

/-- C5 witness: one requirement against zero classrooms fails the
capacity pre-check with both counts in the message. -/
theorem solve_capacity_precheck_witness :
    solve overloadedInput { status := SolverStatus.OPTIMAL, assignment := demoAssignment } [] =
      { ok := false, message := capacityMessage 1 0, db := [] } :=
  solve_capacity_precheck overloadedInput (by decide) (by decide)
    { status := SolverStatus.OPTIMAL, assignment := demoAssignment } []

/-- C6: when no requirements are derived, `solve` fails fast with the
descriptive no-requirements message and an unchanged table, for every
solver response: neither variables nor the solver are consulted. -/
theorem solve_empty_requirements (inp : SchedulerInput)
    (h : prepareClassRequirements inp.offerings = []) :
    ∀ (resp : SolverResponse) (db : List ScheduledClass),
      solve inp resp db =
        { ok := false, message := noRequirementsMessage, db := db } :=
  fun resp db => solve_eq_no_reqs inp h resp db

/-- C6 witness: an input with no offerings fails with the
no-requirements message. -/
theorem solve_empty_requirements_witness :
    solve emptyInput { status := SolverStatus.OPTIMAL, assignment := demoAssignment } [] =
      { ok := false, message := noRequirementsMessage, db := [] } :=
  solve_empty_requirements emptyInput (by decide)
    { status := SolverStatus.OPTIMAL, assignment := demoAssignment } []

/-- C7: the requirement deriver equals its specification: per offering the
first assignment responsible for theory (then tutorial) is chosen,
required-hours many sessions of that kind are emitted (zero, silently,
when no responsible assignment exists), and the emitted requirements carry
fresh ids 0, 1, 2, ... in order across the whole run. -/
theorem prepare_characterization (offs : List CourseOffering) :
    prepareClassRequirements offs =
      (List.enumFrom 0 (offs.flatMap offeringSessionsSpec)).map specRequirement ∧
    (prepareClassRequirements offs).map Requirement.id =
      List.range' 0 (offs.flatMap offeringSessionsSpec).length :=
  ⟨prepareFrom_eq offs 0, prepare_map_id offs⟩

/-- C8: on a success status the outcome table is exactly the freshly
materialized rows, wholly independent of the previously persisted rows
(full destructive replace), and every inserted row carries its originating
requirement's faculty, subject, section and class kind. -/
theorem save_results_full_replace (inp : SchedulerInput) (resp : SolverResponse)
    (hst : resp.status = SolverStatus.OPTIMAL ∨ resp.status = SolverStatus.FEASIBLE)
    (hne : prepareClassRequirements inp.offerings ≠ [])
    (hcap : ¬(prepareClassRequirements inp.offerings).length > availableSlots inp) :
    (∀ db : List ScheduledClass, solve inp resp db =
      { ok := true, message := successMessage,
        db := (saveResults (prepareClassRequirements inp.offerings) inp.allClassrooms
          resp.assignment) }) ∧
    (∀ sc ∈ saveResults (prepareClassRequirements inp.offerings) inp.allClassrooms
        resp.assignment,
      ∃ r ∈ prepareClassRequirements inp.offerings,
        sc.facultyId = r.facultyId ∧ sc.subjectId = r.subjectId ∧
          sc.sectionId = r.sectionId ∧ sc.classType = r.classType ∧
          resp.assignment r.id sc.day sc.period sc.classroomId = true) := by
  constructor
  · intro db
    exact solve_eq_success inp hne hcap resp hst db
  · intro sc hsc
    exact (mem_saveResults _ _ _ sc hsc).2.2.2

/-- C8 witness: a run over a table holding a leftover row replaces it
wholesale with the freshly materialized rows. -/
theorem save_results_full_replace_witness :
    solve demoInput { status := SolverStatus.OPTIMAL, assignment := demoAssignment } [oldRow] =
      { ok := true, message := successMessage,
        db := (saveResults (prepareClassRequirements demoInput.offerings)
          demoInput.allClassrooms demoAssignment) } := by
  have h := save_results_full_replace demoInput
    { status := SolverStatus.OPTIMAL, assignment := demoAssignment }
    (Or.inl rfl) (by decide) (by decide)
  exact h.1 [oldRow]

/-- C9 (amended): the day and period axes are fixed module-level constants
(6 days, 8 periods); `solve` takes no days-per-week or periods-per-day
option, so every call works over the 6 by 8 grid and the slot capacity is
always |classrooms| * 48. -/
theorem grid_is_fixed (inp : SchedulerInput) :
    DAYS = [1, 2, 3, 4, 5, 6] ∧ PERIODS = [1, 2, 3, 4, 5, 6, 7, 8] ∧
    availableSlots inp = inp.allClassrooms.length * (6 * 8) := by
  refine ⟨by decide, by decide, ?_⟩
  simp [availableSlots, DAYS, PERIODS, List.length_range', Nat.mul_assoc]

/-- C9 counterexample: 49 requirements against one classroom overflow the
capacity check at exactly 48 = 6 * 8 slots; no caller-supplied option can
change those axes because `solve` accepts none. -/
theorem grid_not_configurable_counterexample :
    (solve bigInput { status := SolverStatus.OPTIMAL, assignment := demoAssignment } []).message
      = capacityMessage 49 48 ∧ 48 = 6 * 8 :=
  ⟨rfl, rfl⟩

/-- C10: an offering with a zero required-hours field emits no
requirements of that kind even when a responsible faculty assignment
exists; with both fields zero it contributes nothing, and when every
offering is like that `solve` fails with the no-requirements message. -/
theorem zero_hours_contribute_nothing (off : CourseOffering) (c : Nat) (inp : SchedulerInput) :
    (off.requiredTheoryHours = 0 →
      ((emitOffering off c).1.filter fun r => r.classType == ClassType.THEORY) = []) ∧
    (off.requiredTutorialHours = 0 →
      ((emitOffering off c).1.filter fun r => r.classType == ClassType.TUTORIAL) = []) ∧
    (off.requiredTheoryHours = 0 → off.requiredTutorialHours = 0 →
      (emitOffering off c).1 = []) ∧
    ((∀ o ∈ inp.offerings, o.requiredTheoryHours = 0 ∧ o.requiredTutorialHours = 0) →
      ∀ (resp : SolverResponse) (db : List ScheduledClass),
        solve inp resp db =
          { ok := false, message := noRequirementsMessage, db := db }) := by
  refine ⟨?_, ?_, ?_, ?_⟩
  · intro hth
    unfold emitOffering
    cases h1 : off.facultyAssignments.find? responsibleForTheory <;>
      cases h2 : off.facultyAssignments.find? responsibleForTutorial <;>
        simp [hth, List.filter_eq_nil_iff] <;>
          (intro r x hx1 hx2 heq; subst heq; simp)
  · intro htu
    unfold emitOffering
    cases h1 : off.facultyAssignments.find? responsibleForTheory <;>
      cases h2 : off.facultyAssignments.find? responsibleForTutorial <;>
        simp [htu, List.filter_eq_nil_iff] <;>
          (intro r x hx1 hx2 heq; subst heq; simp)
  · intro hth htu
    unfold emitOffering
    cases h1 : off.facultyAssignments.find? responsibleForTheory <;>
      cases h2 : off.facultyAssignments.find? responsibleForTutorial <;>
        simp [hth, htu]
  · intro hall resp db
    exact solve_eq_no_reqs inp (prepareFrom_zero inp.offerings hall 0) resp db

/-- C10 witness: the zero-hours offering with a faculty assignment emits
nothing, and an input consisting only of it fails with the
no-requirements message. -/
theorem zero_hours_contribute_nothing_witness :
    ((emitOffering zeroOffering 0).1.filter fun r => r.classType == ClassType.THEORY) = [] ∧
    ((emitOffering zeroOffering 0).1.filter fun r => r.classType == ClassType.TUTORIAL) = [] ∧
    (emitOffering zeroOffering 0).1 = [] ∧
    solve zeroInput { status := SolverStatus.OPTIMAL, assignment := demoAssignment } [] =
      { ok := false, message := noRequirementsMessage, db := [] } := by
  have h := zero_hours_contribute_nothing zeroOffering 0 zeroInput
  exact ⟨h.1 rfl, h.2.1 rfl, h.2.2.1 rfl rfl,
    h.2.2.2 (by decide) { status := SolverStatus.OPTIMAL, assignment := demoAssignment } []⟩

end Timetable
